import Mathlib

/-!
Shallow embedding of the todo CLI (`app.py`) and proofs about its claims.

The program is a single-file Python CLI backed by a sqlite database
(tables: tasks, notes, events, documents), plus two filesystem artifacts:
a calendar file (`calendar.ics`, regenerated from the events table) and a
managed `storage/` directory tree holding copied documents.

Modelling conventions:
* Python `datetime.date` / `datetime.datetime` become `PyDate` / `PyDateTime`
  with `Nat` fields and an optional UTC offset in minutes.
  `datetime.fromisoformat` becomes an executable `Option`-returning parser
  over the string's characters, covering the grammar the CLI can feed it:
  `YYYY-MM-DD[<sep>HH[:MM[:SS[.ffffff]]][Z|±HH:MM]]` with calendar-validity
  checks (month range, day-of-month range including leap years, time field
  ranges), as CPython does.  `isoformat` is the inverse printer
  (`YYYY-MM-DDTHH:MM:SS[.ffffff][±HH:MM]`, seconds always printed,
  microseconds printed only when nonzero), matching CPython's output format.
* The sqlite database becomes explicit lists of row structures inside a
  `State`; `INSERT` appends a row with the next auto-increment id;
  `ORDER BY <text column>` sorts by sqlite's BINARY collation, i.e. memcmp
  over the UTF-8 bytes, embedded as lexicographic comparison of the
  characters (`bytesLe`): for code points, memcmp order on UTF-8 equals
  code-point order, and all strings involved are ASCII.
* The filesystem becomes a list of directories plus a finite map from file
  paths to file contents; `shutil.copy` looks the source up in that map.
* Python exceptions become `Except (AppError × State) State`: the error
  carries the state at the moment the exception escapes (sqlite commits of
  earlier statements persist).
-/

namespace TodoApp

/-! ## Dates and datetimes (model of Python `datetime`) -/

/-- Model of `datetime.date`: a calendar date. -/
structure PyDate where
  year : Nat
  month : Nat
  day : Nat
deriving DecidableEq, Repr

/-- Model of `datetime.datetime`: a date, a time of day to microsecond
precision, and an optional UTC offset in minutes (`None` = naive). -/
structure PyDateTime where
  date : PyDate
  hour : Nat
  minute : Nat
  second : Nat
  microsecond : Nat
  offset : Option Int
deriving DecidableEq, Repr

/-- Leap-year test, as in the Gregorian calendar used by `datetime`. -/
def isLeap (y : Nat) : Bool :=
  y % 4 == 0 && (y % 100 != 0 || y % 400 == 0)

/-- Number of days in a month, as `datetime` validates it. -/
def daysInMonth (y m : Nat) : Nat :=
  if m = 2 then (if isLeap y then 29 else 28)
  else if m = 4 ∨ m = 6 ∨ m = 9 ∨ m = 11 then 30
  else 31

/-- Strict comparison of dates, as Python compares `date` values:
lexicographic on (year, month, day).  Date-only: no time component. -/
def PyDate.lt (a b : PyDate) : Bool :=
  a.year < b.year ||
    (a.year == b.year &&
      (a.month < b.month || (a.month == b.month && a.day < b.day)))

/-- All datetime fields in range, as guaranteed by `datetime`'s constructor:
4-digit year from 1, valid month/day, time fields in range, offset (when
present) strictly less than a day in magnitude. -/
def PyDateTime.validB (dt : PyDateTime) : Bool :=
  1 ≤ dt.date.year && dt.date.year ≤ 9999 &&
  1 ≤ dt.date.month && dt.date.month ≤ 12 &&
  1 ≤ dt.date.day && dt.date.day ≤ daysInMonth dt.date.year dt.date.month &&
  dt.hour ≤ 23 && dt.minute ≤ 59 && dt.second ≤ 59 && dt.microsecond ≤ 999999

/-! ### Parsing (`datetime.fromisoformat`, `date.fromisoformat`) -/

/-- Read exactly `k` decimal digits, most significant first. -/
def takeDigits : Nat → List Char → Option (Nat × List Char)
  | 0, cs => some (0, cs)
  | _ + 1, [] => none
  | k + 1, c :: cs =>
    if c.isDigit then
      (takeDigits k cs).map (fun p => ((c.toNat - 48) * 10 ^ k + p.1, p.2))
    else none

/-- Parse the date part `YYYY-MM-DD` with calendar validation. -/
def parseDateChars (cs : List Char) : Option (PyDate × List Char) := do
  let (y, cs) ← takeDigits 4 cs
  match cs with
  | '-' :: cs =>
    let (mo, cs) ← takeDigits 2 cs
    match cs with
    | '-' :: cs =>
      let (d, cs) ← takeDigits 2 cs
      if 1 ≤ y ∧ 1 ≤ mo ∧ mo ≤ 12 ∧ 1 ≤ d ∧ d ≤ daysInMonth y mo then
        some (⟨y, mo, d⟩, cs)
      else none
    | _ => none
  | _ => none

/-- Parse a fractional-second part: `.` followed by 1 to 6 digits, scaled
to microseconds.  Returns `(0, cs)` unchanged when no `.` follows. -/
def parseFraction : List Char → Option (Nat × List Char)
  | '.' :: cs =>
    let digits := cs.takeWhile Char.isDigit
    let rest := cs.dropWhile Char.isDigit
    if 1 ≤ digits.length ∧ digits.length ≤ 6 then
      some ((digits.foldl (fun a c => a * 10 + (c.toNat - 48)) 0) *
              10 ^ (6 - digits.length), rest)
    else none
  | cs => some (0, cs)

/-- Parse a trailing UTC offset: nothing (naive), `Z`, or `±HH:MM`.
Must consume the rest of the string. -/
def parseOffset : List Char → Option (Option Int)
  | [] => some none
  | ['Z'] => some (some 0)
  | c :: cs =>
    if c = '+' ∨ c = '-' then
      match takeDigits 2 cs with
      | some (oh, ':' :: cs) =>
        match takeDigits 2 cs with
        | some (om, []) =>
          if oh ≤ 23 ∧ om ≤ 59 then
            some (some (if c = '-' then -((oh : Int) * 60 + om)
                        else (oh : Int) * 60 + om))
          else none
        | _ => none
      | _ => none
    else none

/-- Parse the time-of-day part `HH[:MM[:SS[.ffffff]]]` plus optional offset. -/
def parseTimeChars (cs : List Char) : Option (Nat × Nat × Nat × Nat × Option Int) := do
  let (h, cs) ← takeDigits 2 cs
  let (mi, s, us, cs) ←
    match cs with
    | ':' :: cs => do
      let (mi, cs) ← takeDigits 2 cs
      match cs with
      | ':' :: cs => do
        let (s, cs) ← takeDigits 2 cs
        let (us, cs) ← parseFraction cs
        pure (mi, s, us, cs)
      | _ => pure (mi, 0, 0, cs)
    | _ => pure (0, 0, 0, cs)
  let off ← parseOffset cs
  if h ≤ 23 ∧ mi ≤ 59 ∧ s ≤ 59 then
    pure (h, mi, s, us, off)
  else none

/-- Model of `datetime.fromisoformat`: a date, optionally followed by a
single separator character (any character, as in CPython) and a time. -/
def PyDateTime.fromisoformat (str : String) : Option PyDateTime := do
  let (d, cs) ← parseDateChars str.data
  match cs with
  | [] => some ⟨d, 0, 0, 0, 0, none⟩
  | _ :: cs =>
    let (h, mi, s, us, off) ← parseTimeChars cs
    some ⟨d, h, mi, s, us, off⟩

/-- Model of `datetime.date.fromisoformat`: exactly `YYYY-MM-DD`. -/
def PyDate.fromisoformat (str : String) : Option PyDate :=
  match parseDateChars str.data with
  | some (d, []) => some d
  | _ => none

/-! ### Printing (`isoformat`, `str(date)`) -/

/-- Fixed-width zero-padded decimal rendering, most significant digit
first: the model of Python's `%0kd` formatting for values below `10^k`. -/
def padDigits : Nat → Nat → List Char
  | 0, _ => []
  | k + 1, a => Nat.digitChar (a / 10 ^ k) :: padDigits k (a % 10 ^ k)

/-- Characters of `str(date)` / `date.isoformat()`: `YYYY-MM-DD`. -/
def PyDate.isoChars (d : PyDate) : List Char :=
  padDigits 4 d.year ++ ['-'] ++ padDigits 2 d.month ++ ['-'] ++ padDigits 2 d.day

/-- Model of `str(date)`: the `YYYY-MM-DD` rendering. -/
def PyDate.toIso (d : PyDate) : String := ⟨d.isoChars⟩

/-- Characters of the fractional-seconds suffix of `isoformat()`:
empty when the microsecond field is zero, else `.ffffff`. -/
def fracChars (us : Nat) : List Char :=
  if us = 0 then [] else '.' :: padDigits 6 us

/-- Characters of the UTC-offset suffix of `isoformat()`:
empty for naive values, else `±HH:MM`. -/
def offsetChars : Option Int → List Char
  | none => []
  | some off =>
    (if off < 0 then '-' else '+') ::
      (padDigits 2 (off.natAbs / 60) ++ [':'] ++ padDigits 2 (off.natAbs % 60))

/-- Characters of `datetime.isoformat()`. -/
def PyDateTime.isoChars (dt : PyDateTime) : List Char :=
  dt.date.isoChars ++ ['T'] ++ padDigits 2 dt.hour ++ [':'] ++
    padDigits 2 dt.minute ++ [':'] ++ padDigits 2 dt.second ++
    fracChars dt.microsecond ++ offsetChars dt.offset

/-- Model of `datetime.isoformat()`:
`YYYY-MM-DDTHH:MM:SS[.ffffff][±HH:MM]`. -/
def PyDateTime.isoformat (dt : PyDateTime) : String := ⟨dt.isoChars⟩

/-! ### Chronological order -/

/-- A single-number encoding of a naive datetime whose numeric order equals
the field-lexicographic order Python uses to compare (valid) naive
datetimes, which is chronological order: every multiplier strictly exceeds
the range of the field to its right. -/
def PyDateTime.naiveKey (dt : PyDateTime) : Nat :=
  (((((dt.date.year * 16 + dt.date.month) * 32 + dt.date.day) * 24 + dt.hour)
      * 60 + dt.minute) * 60 + dt.second) * 1000000 + dt.microsecond

/-- Chronological (non-strict) order on naive datetimes. -/
def PyDateTime.naiveLe (a b : PyDateTime) : Bool :=
  a.naiveKey ≤ b.naiveKey

/-- Day count of a date (civil-from-days inverse), used to place aware
datetimes on an absolute time line. -/
def daysFromCivil (d : PyDate) : Nat :=
  let y := d.year - 1
  365 * y + y / 4 - y / 100 + y / 400 +
    (List.range (d.month - 1)).foldl (fun a m => a + daysInMonth d.year (m + 1)) 0 +
    (d.day - 1)

/-- Absolute instant of an aware datetime, in microseconds, after removing
the UTC offset: the quantity whose order is chronological order. -/
def PyDateTime.utcMicros (dt : PyDateTime) : Option Int :=
  dt.offset.map (fun off =>
    ((((((daysFromCivil dt.date) * 24 + dt.hour) * 60 + dt.minute) * 60
        + dt.second) * 1000000 + dt.microsecond : Nat) : Int) - off * 60000000)

/-! ## sqlite BINARY collation

`ORDER BY` on a TEXT value compares with memcmp over the UTF-8 bytes.
For well-formed UTF-8, memcmp order equals code-point order, so we embed
it as lexicographic comparison of the characters. -/

/-- Non-strict lexicographic order on character lists (memcmp order). -/
def bytesLe : List Char → List Char → Bool
  | [], _ => true
  | _ :: _, [] => false
  | a :: as, b :: bs => if a < b then true else if b < a then false else bytesLe as bs

/-- sqlite BINARY-collation comparison of two TEXT values. -/
def strLe (s t : String) : Bool := bytesLe s.data t.data

theorem bytesLe_total : ∀ a b : List Char, (bytesLe a b || bytesLe b a) = true := by
  intro a
  induction a with
  | nil => intro b; simp [bytesLe]
  | cons x as ih =>
    intro b
    cases b with
    | nil => simp [bytesLe]
    | cons y bs =>
      rcases lt_trichotomy x y with h | h | h
      · simp [bytesLe, h]
      · subst h; simpa [bytesLe, lt_irrefl] using ih bs
      · simp [bytesLe, h, not_lt_of_gt h]

theorem bytesLe_trans :
    ∀ a b c : List Char, bytesLe a b = true → bytesLe b c = true → bytesLe a c = true := by
  intro a
  induction a with
  | nil => intro b c _ _; simp [bytesLe]
  | cons x as ih =>
    intro b c hab hbc
    cases b with
    | nil => simp [bytesLe] at hab
    | cons y bs =>
      cases c with
      | nil => simp [bytesLe] at hbc
      | cons z cs =>
        by_cases hxy : x < y
        · by_cases hyz : y < z
          · simp [bytesLe, lt_trans hxy hyz]
          · by_cases hzy : z < y
            · simp [bytesLe, hyz, hzy] at hbc
            · have : y = z := le_antisymm (not_lt.mp hzy) (not_lt.mp hyz)
              subst this
              simp [bytesLe, hxy]
        · by_cases hyx : y < x
          · simp [bytesLe, hxy, hyx] at hab
          · have hxyeq : x = y := le_antisymm (not_lt.mp hyx) (not_lt.mp hxy)
            subst hxyeq
            simp only [bytesLe, if_neg (lt_irrefl x)] at hab
            by_cases hyz : x < z
            · simp [bytesLe, hyz]
            · by_cases hzy : z < x
              · simp [bytesLe, hyz, hzy] at hbc
              · have : x = z := le_antisymm (not_lt.mp hzy) (not_lt.mp hyz)
                subst this
                simp only [bytesLe, if_neg (lt_irrefl x)] at hbc ⊢
                exact ih bs cs hab hbc

theorem strLe_trans (a b c : String) (h1 : strLe a b = true) (h2 : strLe b c = true) :
    strLe a c = true := bytesLe_trans a.data b.data c.data h1 h2

theorem strLe_total (a b : String) : (strLe a b || strLe b a) = true :=
  bytesLe_total a.data b.data

theorem padDigits_length : ∀ (k a : Nat), (padDigits k a).length = k := by
  intro k
  induction k with
  | zero => intro a; rfl
  | succ k ih => intro a; simp [padDigits, ih]

theorem digitChar_lt_iff :
    ∀ x, x < 10 → ∀ y, y < 10 → (Nat.digitChar x < Nat.digitChar y ↔ x < y) := by decide

theorem digitChar_inj10 :
    ∀ x, x < 10 → ∀ y, y < 10 → (Nat.digitChar x = Nat.digitChar y ↔ x = y) := by decide

theorem padDigits_inj :
    ∀ (k a b : Nat), a < 10 ^ k → b < 10 ^ k →
      (padDigits k a = padDigits k b ↔ a = b) := by
  intro k
  induction k with
  | zero => intro a b ha hb; norm_num at ha hb; simp [padDigits, ha, hb]
  | succ k ih =>
    intro a b ha hb
    have hpow : 10 ^ (k + 1) = 10 ^ k * 10 := pow_succ 10 k
    have ha' : a / 10 ^ k < 10 := Nat.div_lt_of_lt_mul (by omega)
    have hb' : b / 10 ^ k < 10 := Nat.div_lt_of_lt_mul (by omega)
    have hma : a % 10 ^ k < 10 ^ k := Nat.mod_lt _ (Nat.pos_pow_of_pos k (by omega))
    have hmb : b % 10 ^ k < 10 ^ k := Nat.mod_lt _ (Nat.pos_pow_of_pos k (by omega))
    simp only [padDigits, List.cons.injEq]
    rw [digitChar_inj10 _ ha' _ hb', ih _ _ hma hmb]
    constructor
    · rintro ⟨hdiv, hmod⟩
      calc a = 10 ^ k * (a / 10 ^ k) + a % 10 ^ k := (Nat.div_add_mod a (10 ^ k)).symm
        _ = 10 ^ k * (b / 10 ^ k) + b % 10 ^ k := by rw [hdiv, hmod]
        _ = b := Nat.div_add_mod b (10 ^ k)
    · rintro rfl; exact ⟨rfl, rfl⟩

theorem padDigits_le :
    ∀ (k a b : Nat), a < 10 ^ k → b < 10 ^ k →
      bytesLe (padDigits k a) (padDigits k b) = decide (a ≤ b) := by
  intro k
  induction k with
  | zero => intro a b ha hb; simp [padDigits, bytesLe]; omega
  | succ k ih =>
    intro a b ha hb
    have hpow : 10 ^ (k + 1) = 10 ^ k * 10 := pow_succ 10 k
    have ha' : a / 10 ^ k < 10 := Nat.div_lt_of_lt_mul (by omega)
    have hb' : b / 10 ^ k < 10 := Nat.div_lt_of_lt_mul (by omega)
    have hma : a % 10 ^ k < 10 ^ k := Nat.mod_lt _ (Nat.pos_pow_of_pos k (by omega))
    have hmb : b % 10 ^ k < 10 ^ k := Nat.mod_lt _ (Nat.pos_pow_of_pos k (by omega))
    simp only [padDigits]
    have e1 := Nat.div_add_mod a (10 ^ k)
    have e2 := Nat.div_add_mod b (10 ^ k)
    rcases lt_trichotomy (a / 10 ^ k) (b / 10 ^ k) with hd | hd | hd
    · have hchar : Nat.digitChar (a / 10 ^ k) < Nat.digitChar (b / 10 ^ k) :=
        (digitChar_lt_iff _ ha' _ hb').mpr hd
      have hstep : 10 ^ k * (a / 10 ^ k) + 10 ^ k ≤ 10 ^ k * (b / 10 ^ k) := by
        have := Nat.mul_le_mul_left (10 ^ k) (Nat.succ_le_of_lt hd)
        simpa [Nat.mul_succ] using this
      have hab : a < b := by omega
      simp [bytesLe, hchar, Nat.le_of_lt hab]
    · have hchar : Nat.digitChar (a / 10 ^ k) = Nat.digitChar (b / 10 ^ k) := by rw [hd]
      rw [hchar]
      have step : bytesLe (Nat.digitChar (b / 10 ^ k) :: padDigits k (a % 10 ^ k))
          (Nat.digitChar (b / 10 ^ k) :: padDigits k (b % 10 ^ k))
          = bytesLe (padDigits k (a % 10 ^ k)) (padDigits k (b % 10 ^ k)) := by
        simp [bytesLe, lt_irrefl]
      rw [step, ih _ _ hma hmb]
      rw [hd] at e1
      have hiff : (a % 10 ^ k ≤ b % 10 ^ k) ↔ (a ≤ b) := by
        generalize 10 ^ k * (b / 10 ^ k) = M at e1 e2
        omega
      simp only [decide_eq_decide]
      exact hiff
    · have hchar : Nat.digitChar (b / 10 ^ k) < Nat.digitChar (a / 10 ^ k) :=
        (digitChar_lt_iff _ hb' _ ha').mpr hd
      have hstep : 10 ^ k * (b / 10 ^ k) + 10 ^ k ≤ 10 ^ k * (a / 10 ^ k) := by
        have := Nat.mul_le_mul_left (10 ^ k) (Nat.succ_le_of_lt hd)
        simpa [Nat.mul_succ] using this
      have hba : b < a := by omega
      simp [bytesLe, hchar, not_lt_of_gt hchar, Nat.not_le_of_lt hba]

/-- An identical separator character at the head of both strings. -/
theorem bytesLe_sep (c : Char) (r1 r2 : List Char) :
    bytesLe (c :: r1) (c :: r2) = bytesLe r1 r2 := by
  simp [bytesLe, lt_irrefl]

theorem bytesLe_append :
    ∀ (x1 x2 r1 r2 : List Char), x1.length = x2.length →
      bytesLe (x1 ++ r1) (x2 ++ r2) =
        if x1 = x2 then bytesLe r1 r2 else bytesLe x1 x2 := by
  intro x1
  induction x1 with
  | nil =>
    intro x2 r1 r2 h
    cases x2 with
    | nil => simp
    | cons b bs => simp at h
  | cons a as ih =>
    intro x2 r1 r2 h
    cases x2 with
    | nil => simp at h
    | cons b bs =>
      simp only [List.length_cons, Nat.succ.injEq] at h
      by_cases hab : a < b
      · have hne : (a :: as) ≠ (b :: bs) := by
          simp [List.cons.injEq]; intro he; exact absurd he (ne_of_lt hab)
        simp [bytesLe, hab, hne]
      · by_cases hba : b < a
        · have hne : (a :: as) ≠ (b :: bs) := by
            simp [List.cons.injEq]; intro he; exact absurd he.symm (ne_of_lt hba)
          simp [bytesLe, hab, hba, hne]
        · have heq : a = b := le_antisymm (not_lt.mp hba) (not_lt.mp hab)
          subst heq
          by_cases hs : as = bs
          · subst hs
            simp [bytesLe, lt_irrefl, ih as r1 r2 rfl]
          · have hne : (a :: as) ≠ (a :: bs) := by simp [hs]
            rw [if_neg hne]
            simp only [List.cons_append]
            rw [bytesLe_sep, bytesLe_sep, ih bs r1 r2 h, if_neg hs]

/-- One fixed-width numeric field at the head of both strings: the
comparison is decided by the field unless the fields are equal. -/
theorem bytesLe_field (k a b : Nat) (r1 r2 : List Char)
    (ha : a < 10 ^ k) (hb : b < 10 ^ k) :
    bytesLe (padDigits k a ++ r1) (padDigits k b ++ r2) =
      if a = b then bytesLe r1 r2 else decide (a ≤ b) := by
  rw [bytesLe_append _ _ _ _ (by rw [padDigits_length, padDigits_length])]
  by_cases hab : a = b
  · subst hab; simp
  · rw [if_neg (by rw [padDigits_inj k a b ha hb]; exact hab), if_neg hab,
      padDigits_le k a b ha hb]

/-- The fractional-second suffixes compare like the microsecond values. -/
theorem bytesLe_frac (u1 u2 : Nat) (h1 : u1 ≤ 999999) (h2 : u2 ≤ 999999) :
    bytesLe (fracChars u1) (fracChars u2) = decide (u1 ≤ u2) := by
  unfold fracChars
  by_cases c1 : u1 = 0 <;> by_cases c2 : u2 = 0
  · simp [c1, c2, bytesLe]
  · simp [c1, c2, bytesLe]
  · simp [c1, c2, bytesLe]
  · rw [if_neg c1, if_neg c2, bytesLe_sep,
      padDigits_le 6 u1 u2 (by norm_num; omega) (by norm_num; omega)]

theorem daysInMonth_le (y m : Nat) : daysInMonth y m ≤ 31 := by
  unfold daysInMonth
  split
  · split <;> omega
  · split <;> omega

/-- Core ordering fact: for valid naive datetimes, sqlite's BINARY string
order on the `isoformat` renderings coincides with chronological order. -/
theorem strLe_isoformat_eq_naiveLe (a b : PyDateTime)
    (hva : a.validB = true) (hvb : b.validB = true)
    (ha : a.offset = none) (hb : b.offset = none) :
    strLe a.isoformat b.isoformat = a.naiveLe b := by
  simp only [PyDateTime.validB, Bool.and_eq_true, decide_eq_true_eq] at hva hvb
  obtain ⟨⟨⟨⟨⟨⟨⟨⟨⟨hy1l, hy1u⟩, hmo1l⟩, hmo1u⟩, hd1l⟩, hd1u⟩, hh1⟩, hmi1⟩, hs1⟩, hu1⟩ := hva
  obtain ⟨⟨⟨⟨⟨⟨⟨⟨⟨hy2l, hy2u⟩, hmo2l⟩, hmo2u⟩, hd2l⟩, hd2u⟩, hh2⟩, hmi2⟩, hs2⟩, hu2⟩ := hvb
  have hdm1 := daysInMonth_le a.date.year a.date.month
  have hdm2 := daysInMonth_le b.date.year b.date.month
  simp only [strLe, PyDateTime.isoformat, PyDateTime.isoChars, PyDate.isoChars, ha, hb,
    offsetChars, List.append_nil, List.append_assoc, List.singleton_append,
    List.cons_append, List.nil_append]
  rw [bytesLe_field 4 _ _ _ _ (by omega) (by omega)]
  simp only [PyDateTime.naiveLe, PyDateTime.naiveKey]
  by_cases hy : a.date.year = b.date.year
  · rw [if_pos hy, bytesLe_sep, bytesLe_field 2 _ _ _ _ (by omega) (by omega)]
    by_cases hmo : a.date.month = b.date.month
    · rw [if_pos hmo, bytesLe_sep, bytesLe_field 2 _ _ _ _ (by omega) (by omega)]
      by_cases hd : a.date.day = b.date.day
      · rw [if_pos hd, bytesLe_sep, bytesLe_field 2 _ _ _ _ (by omega) (by omega)]
        by_cases hh : a.hour = b.hour
        · rw [if_pos hh, bytesLe_sep, bytesLe_field 2 _ _ _ _ (by omega) (by omega)]
          by_cases hmi : a.minute = b.minute
          · rw [if_pos hmi, bytesLe_sep, bytesLe_field 2 _ _ _ _ (by omega) (by omega)]
            by_cases hs : a.second = b.second
            · rw [if_pos hs, bytesLe_frac _ _ (by omega) (by omega), decide_eq_decide]
              omega
            · rw [if_neg hs, decide_eq_decide]; omega
          · rw [if_neg hmi, decide_eq_decide]; omega
        · rw [if_neg hh, decide_eq_decide]; omega
      · rw [if_neg hd, decide_eq_decide]; omega
    · rw [if_neg hmo, decide_eq_decide]; omega
  · rw [if_neg hy, decide_eq_decide]; omega

/-! ## The record store, the filesystem, and the program state -/

/-- A row of the sqlite `tasks` table.  `expires` holds `str(date)`,
i.e. a `YYYY-MM-DD` string (the column's declared type is DATE, but
sqlite stores the text and compares it with BINARY collation). -/
structure TaskRow where
  id : Nat
  description : String
  expires : String
deriving DecidableEq, Repr

/-- A row of the sqlite `notes` table. -/
structure NoteRow where
  id : Nat
  content : String
deriving DecidableEq, Repr

/-- A row of the sqlite `events` table.  `time` holds `dt.isoformat()`. -/
structure EventRow where
  id : Nat
  name : String
  time : String
deriving DecidableEq, Repr

/-- A row of the sqlite `documents` table (`storage` is NULLable). -/
structure DocumentRow where
  id : Nat
  label : String
  path : String
  storage : Option String
deriving DecidableEq, Repr

/-- One entry of the generated `calendar.ics` file: an `ics.Event` with the
stored name as title and the parsed stored time as its begin instant.
Each `ics.Event` receives a fresh unique uid on construction, so adding
one event object per row to `calendar.events` never merges two entries,
even when two rows carry the same name and time; the file's entry
collection is therefore modelled as a list with one entry per row. -/
structure CalEntry where
  name : String
  begin : PyDateTime
deriving DecidableEq, Repr

/-- The whole observable state: database tables with their next
auto-increment ids, the directory tree and file contents under the
process working directory, the calendar file, and two instrumentation
counters recording how often `generate_calendar` was entered and how
often it actually (re)wrote `calendar.ics`. -/
structure State where
  dbInitialized : Bool
  tasks : List TaskRow
  notes : List NoteRow
  events : List EventRow
  documents : List DocumentRow
  nextTaskId : Nat
  nextNoteId : Nat
  nextEventId : Nat
  nextDocId : Nat
  dirs : List String
  files : List (String × String)
  calendarFile : Option (List CalEntry)
  regenCalls : Nat
  calWrites : Nat
deriving DecidableEq, Repr

/-- Fresh process environment: empty store, empty filesystem. -/
def State.init : State :=
  { dbInitialized := false, tasks := [], notes := [], events := [], documents := []
    nextTaskId := 1, nextNoteId := 1, nextEventId := 1, nextDocId := 1
    dirs := [], files := [], calendarFile := none, regenCalls := 0, calWrites := 0 }

/-- The exceptions the program can raise (uncaught, they abort the
process): `invalidInput` is `ValueError` from `fromisoformat`,
`notFound` is `FileNotFoundError` from `shutil.copy`, `ioError` covers
the remaining copy failures the model can express. -/
inductive AppError
  | invalidInput
  | notFound
  | ioError
deriving DecidableEq, Repr

/-- Result of a fallible operation: on error, the state at the moment the
exception escapes is carried along (earlier commits persist). -/
abbrev OpResult := Except (AppError × State) State

/-! ### Filesystem primitives -/

/-- `pathlib` join: empty components are ignored, an absolute component
replaces the base (duplicate-slash normalization is not modelled; no
path the program builds produces one). -/
def pathJoin (base part : String) : String :=
  if part = "" then base
  else
    match part.data with
    | '/' :: _ => part
    | _ => base ++ "/" ++ part

/-- Split a character list on `/`, keeping empty segments. -/
def pathSegs : List Char → List (List Char)
  | [] => [[]]
  | c :: cs =>
    if c = '/' then [] :: pathSegs cs
    else
      match pathSegs cs with
      | [] => [[c]]
      | seg :: segs => (c :: seg) :: segs

/-- `Path(p).name`: the last nonempty `/`-separated component (empty for
the filesystem root and for the empty path). -/
def baseName (p : String) : String :=
  ⟨((pathSegs p.data).filter (fun seg => seg ≠ [])).reverse.headD []⟩

/-- `mkdir(exist_ok=True)`: record the directory if not already present. -/
def insertDir (p : String) (ds : List String) : List String :=
  if p ∈ ds then ds else ds ++ [p]

/-- Read a file's content, `none` when no such file exists. -/
def lookupFile (k : String) : List (String × String) → Option String
  | [] => none
  | (k', v) :: rest => if k' = k then some v else lookupFile k rest

/-- Write a file: overwrite in place when the path exists, else create. -/
def setFile (k v : String) : List (String × String) → List (String × String)
  | [] => [(k, v)]
  | (k', v') :: rest => if k' = k then (k, v) :: rest else (k', v') :: setFile k v rest

/-- The fixed content root `STORAGE_DIR = Path('storage')`. -/
def STORAGE_DIR : String := "storage"

/-! ### The operations of `app.py` -/

/-- `init_db()`: create the four tables if absent (idempotent; touches
only the database schema). -/
def init_db (s : State) : State := { s with dbInitialized := true }

/-- `add_task(description, expires)`: parse the expiration with
`datetime.fromisoformat` (raising `ValueError` on failure, before any
database access), then insert `(description, str(dt.date()))`. -/
def add_task (description expires : String) (s : State) : OpResult :=
  match PyDateTime.fromisoformat expires with
  | none => .error (.invalidInput, s)
  | some dt =>
    .ok { s with
      tasks := s.tasks ++ [⟨s.nextTaskId, description, PyDate.toIso dt.date⟩]
      nextTaskId := s.nextTaskId + 1 }

/-- The tasks in the order produced by `SELECT ... ORDER BY expires`
(BINARY collation on the stored text; sqlite leaves the order of ties
unspecified, so any sort by this key is a faithful embedding). -/
def tasksOrdered (l : List TaskRow) : List TaskRow :=
  l.insertionSort (fun a b => strLe a.expires b.expires = true)

/-- The `status` computed for one task row: re-parse the stored date with
`date.fromisoformat` (raising on failure, hence `Option`) and produce
`"EXPIRED"` exactly when `date.today() > expiration` — a date-only
comparison — and `""` otherwise. -/
def expiredStatus (today : PyDate) (r : TaskRow) : Option String :=
  (PyDate.fromisoformat r.expires).map (fun d =>
    if PyDate.lt d today then "EXPIRED" else "")

/-- One printed line of `list_tasks`, with the status appended. -/
def taskLine (today : PyDate) (r : TaskRow) : Option String :=
  (expiredStatus today r).map (fun status =>
    toString r.id ++ ": " ++ r.description ++ " (due " ++ r.expires ++ ") " ++ status)

/-- `list_tasks()`: the printed lines, `none` when a stored date fails to
re-parse (the command then dies with the exception). -/
def list_tasks (today : PyDate) (s : State) : Option (List String) :=
  (tasksOrdered s.tasks).mapM (taskLine today)

/-- `add_note(content)`. -/
def add_note (content : String) (s : State) : State :=
  { s with
    notes := s.notes ++ [⟨s.nextNoteId, content⟩]
    nextNoteId := s.nextNoteId + 1 }

/-- `list_notes()`: rows in store order. -/
def list_notes (s : State) : List String :=
  s.notes.map (fun r => toString r.id ++ ": " ++ r.content)

/-- `generate_calendar()`: read all event rows in store order, build one
calendar entry per row (parsing the stored time; `ValueError` aborts
before the file is opened), then overwrite `calendar.ics` with the
complete entry collection. -/
def generate_calendar (s : State) : OpResult :=
  match s.events.mapM (fun r =>
      (PyDateTime.fromisoformat r.time).map (fun dt => CalEntry.mk r.name dt)) with
  | none => .error (.invalidInput, { s with regenCalls := s.regenCalls + 1 })
  | some entries =>
    .ok { s with regenCalls := s.regenCalls + 1, calendarFile := some entries, calWrites := s.calWrites + 1 }

/-- `add_event(name, time)`: parse the time (raising before any database
access on failure), insert `(name, dt.isoformat())`, commit, then call
`generate_calendar()`. -/
def add_event (name time : String) (s : State) : OpResult :=
  match PyDateTime.fromisoformat time with
  | none => .error (.invalidInput, s)
  | some dt =>
    generate_calendar
      { s with
        events := s.events ++ [⟨s.nextEventId, name, dt.isoformat⟩]
        nextEventId := s.nextEventId + 1 }

/-- The events in the order produced by `SELECT ... ORDER BY time`
(BINARY collation on the stored text). -/
def eventsOrdered (l : List EventRow) : List EventRow :=
  l.insertionSort (fun a b => strLe a.time b.time = true)

/-- One printed line of `list_events`. -/
def eventLine (r : EventRow) : String :=
  toString r.id ++ ": " ++ r.name ++ " at " ++ r.time

/-- `list_events()`: the printed lines. -/
def list_events (s : State) : List String :=
  (eventsOrdered s.events).map eventLine

/-- `add_storage(name)`: `(STORAGE_DIR / name).mkdir(parents=True,
exist_ok=True)` — creates the root and the sub-area, never raises when
they already exist. -/
def add_storage (name : String) (s : State) : State :=
  { s with dirs := insertDir (pathJoin STORAGE_DIR name) (insertDir STORAGE_DIR s.dirs) }

/-- `add_document(label, file_path, storage=None)`: ensure the
destination directory exists, copy the source file to
`<destination>/<basename(file_path)>` (overwriting silently;
`FileNotFoundError` when the source file does not exist,
`IsADirectoryError` when it names a directory), and only after a
successful copy insert the document row. -/
def add_document (label filePath : String) (storage : Option String) (s : State) :
    OpResult :=
  let storagePath := pathJoin STORAGE_DIR (storage.getD "")
  let s1 := { s with dirs := insertDir storagePath (insertDir STORAGE_DIR s.dirs) }
  match lookupFile filePath s1.files with
  | some content =>
    let dest := pathJoin storagePath (baseName filePath)
    .ok { s1 with
      files := setFile dest content s1.files
      documents := s1.documents ++ [⟨s1.nextDocId, label, dest, storage⟩]
      nextDocId := s1.nextDocId + 1 }
  | none =>
    if filePath ∈ s1.dirs then .error (.ioError, s1) else .error (.notFound, s1)

/-- `list_documents()`: rows in store order, `storage or 'root'`. -/
def list_documents (s : State) : List String :=
  s.documents.map (fun r =>
    toString r.id ++ ": " ++ r.label ++ " -> " ++ r.path ++ " (storage: " ++
      (match r.storage with
       | some v => if v = "" then "root" else v
       | none => "root") ++ ")")

/-! ### The command dispatcher (`build_parser` / `main`) -/

/-- A successfully parsed command line. -/
inductive Cmd
  | addTask (description expires : String)
  | listTasks
  | addNote (content : String)
  | listNotes
  | addEvent (name time : String)
  | listEvents
  | addStorage (name : String)
  | addDoc (label filePath : String) (storage : Option String)
  | listDocs
deriving DecidableEq, Repr

/-- Outcome of `argparse`'s `parse_args`: a command, no command at all
(`args.command is None` — `main` prints the usage and returns normally),
a help request (argparse prints help and exits 0), or an argument error
(argparse prints usage to stderr and exits 2). -/
inductive Parsed
  | cmd (c : Cmd)
  | noCommand
  | help
  | usageError
deriving DecidableEq, Repr

/-- The argument shapes `add-doc` accepts: two positionals with the
optional `--storage VALUE` pair in any position. -/
def parseAddDocArgs : List String → Parsed
  | [label, fp] => .cmd (.addDoc label fp none)
  | ["--storage", v, label, fp] => .cmd (.addDoc label fp (some v))
  | [label, "--storage", v, fp] => .cmd (.addDoc label fp (some v))
  | [label, fp, "--storage", v] => .cmd (.addDoc label fp (some v))
  | _ => .usageError

/-- The sub-command names `build_parser` registers. -/
def commandNames : List String :=
  ["add-task", "list-tasks", "add-note", "list-notes", "add-event",
   "list-events", "add-storage", "add-doc", "list-docs"]

/-- `build_parser().parse_args(argv)`: no arguments leave
`args.command = None`; a help flag prints help and exits 0; a known
sub-command requires exactly its declared arguments; anything else is an
`invalid choice` or `unrecognized arguments` error (exit 2). -/
def parseArgs : List String → Parsed
  | [] => .noCommand
  | a :: rest =>
    if a = "-h" ∨ a = "--help" then .help
    else if a = "add-task" then
      match rest with
      | [d, e] => .cmd (.addTask d e)
      | _ => .usageError
    else if a = "list-tasks" then
      match rest with
      | [] => .cmd .listTasks
      | _ => .usageError
    else if a = "add-note" then
      match rest with
      | [c] => .cmd (.addNote c)
      | _ => .usageError
    else if a = "list-notes" then
      match rest with
      | [] => .cmd .listNotes
      | _ => .usageError
    else if a = "add-event" then
      match rest with
      | [n, t] => .cmd (.addEvent n t)
      | _ => .usageError
    else if a = "list-events" then
      match rest with
      | [] => .cmd .listEvents
      | _ => .usageError
    else if a = "add-storage" then
      match rest with
      | [n] => .cmd (.addStorage n)
      | _ => .usageError
    else if a = "add-doc" then parseAddDocArgs rest
    else if a = "list-docs" then
      match rest with
      | [] => .cmd .listDocs
      | _ => .usageError
    else .usageError

/-- Collapse an operation's result into final state and process exit
code: an uncaught exception terminates Python with status 1. -/
def finish : OpResult → State × Nat
  | .ok s => (s, 0)
  | .error (_, s) => (s, 1)

/-- Dispatch of one parsed command, as in `main`'s if/elif chain.
`today` is the ambient current date used by `list_tasks`. -/
def runCmd (today : PyDate) (c : Cmd) (s : State) : State × Nat :=
  match c with
  | .addTask d e => finish (add_task d e s)
  | .listTasks =>
    match list_tasks today s with
    | some _ => (s, 0)
    | none => (s, 1)
  | .addNote c => (add_note c s, 0)
  | .listNotes => (s, 0)
  | .addEvent n t => finish (add_event n t s)
  | .listEvents => (s, 0)
  | .addStorage n => (add_storage n s, 0)
  | .addDoc l fp st => finish (add_document l fp st s)
  | .listDocs => (s, 0)

/-- `main()`: initialize the schema, parse the arguments, dispatch; with
no command, print the help text and return normally (exit 0). -/
def runMain (today : PyDate) (argv : List String) (s : State) : State × Nat :=
  let s0 := init_db s
  match parseArgs argv with
  | .noCommand => (s0, 0)
  | .help => (s0, 0)
  | .usageError => (s0, 2)
  | .cmd c => runCmd today c s0

/-! ## General helper lemmas -/

theorem mapM_option_eq_some {α β : Type} (f : α → Option β) :
    ∀ (l : List α) (res : List β), l.mapM f = some res →
      List.Forall₂ (fun a b => f a = some b) l res := by
  intro l
  induction l with
  | nil =>
    intro res h
    simp only [List.mapM_nil, pure, Option.some.injEq] at h
    subst h
    exact .nil
  | cons a as ih =>
    intro res h
    rw [List.mapM_cons] at h
    simp only [Option.bind_eq_bind, Option.bind_eq_some, Option.pure_def,
      Option.some.injEq] at h
    obtain ⟨b, hfa, bs, hms, hres⟩ := h
    subst hres
    exact .cons hfa (ih bs hms)

theorem insertDir_mem_self (p : String) (ds : List String) : p ∈ insertDir p ds := by
  unfold insertDir
  by_cases h : p ∈ ds <;> simp [h]

theorem insertDir_mem_of_mem (q p : String) (ds : List String) (h : p ∈ ds) :
    p ∈ insertDir q ds := by
  unfold insertDir
  by_cases hq : q ∈ ds <;> simp [hq, h]

theorem insertDir_eq_of_mem (p : String) (ds : List String) (h : p ∈ ds) :
    insertDir p ds = ds := by
  simp [insertDir, h]

theorem insertDir_nodup (p : String) (ds : List String) (h : ds.Nodup) :
    (insertDir p ds).Nodup := by
  unfold insertDir
  by_cases hp : p ∈ ds
  · simpa [hp]
  · simp only [hp, if_false]
    exact h.append (List.nodup_singleton p) (by simpa using hp)

theorem insertDir_count_self (p : String) (ds : List String) (h : ds.Nodup) :
    (insertDir p ds).count p = 1 := by
  unfold insertDir
  by_cases hp : p ∈ ds
  · simp only [hp, if_true]
    have hle := (List.nodup_iff_count_le_one.mp h) p
    have hge := List.count_pos_iff.mpr hp
    omega
  · simp only [hp, if_false, List.count_append]
    rw [List.count_eq_zero.mpr hp]
    simp

theorem insertDir_count_other (q p : String) (ds : List String) (hne : p ≠ q) :
    (insertDir q ds).count p = ds.count p := by
  unfold insertDir
  by_cases hq : q ∈ ds
  · simp [hq]
  · have hqp : ¬ q = p := fun hqp => hne hqp.symm
    simp [hq, List.count_cons, hqp]

theorem lookupFile_setFile_self (k v : String) :
    ∀ fs : List (String × String), lookupFile k (setFile k v fs) = some v := by
  intro fs
  induction fs with
  | nil => simp [setFile, lookupFile]
  | cons kv rest ih =>
    obtain ⟨k', v'⟩ := kv
    unfold setFile
    by_cases hk : k' = k
    · simp [hk, lookupFile]
    · simp [hk, lookupFile, ih]

theorem setFile_keys (k v : String) :
    ∀ fs : List (String × String),
      (setFile k v fs).map Prod.fst =
        if k ∈ fs.map Prod.fst then fs.map Prod.fst else fs.map Prod.fst ++ [k] := by
  intro fs
  induction fs with
  | nil => simp [setFile]
  | cons kv rest ih =>
    obtain ⟨k', v'⟩ := kv
    unfold setFile
    by_cases hk : k' = k
    · subst hk
      simp
    · simp only [hk, if_false, List.map_cons, ih]
      by_cases hmem : k ∈ rest.map Prod.fst
      · simp [hmem, Ne.symm hk]
      · simp [hmem, Ne.symm hk]

theorem setFile_keys_nodup (k v : String) (fs : List (String × String))
    (h : (fs.map Prod.fst).Nodup) : ((setFile k v fs).map Prod.fst).Nodup := by
  rw [setFile_keys]
  by_cases hmem : k ∈ fs.map Prod.fst
  · simpa [hmem]
  · simp only [hmem, if_false]
    exact h.append (List.nodup_singleton k) (by simpa using hmem)

theorem setFile_count_self (k v : String) (fs : List (String × String))
    (h : (fs.map Prod.fst).Nodup) :
    ((setFile k v fs).map Prod.fst).count k = 1 := by
  rw [setFile_keys]
  by_cases hmem : k ∈ fs.map Prod.fst
  · simp only [hmem, if_true]
    have hle := (List.nodup_iff_count_le_one.mp h) k
    have hge := List.count_pos_iff.mpr hmem
    omega
  · simp only [hmem, if_false, List.count_append]
    rw [List.count_eq_zero.mpr hmem]
    simp

theorem mem_keys_setFile_self (k v : String) (fs : List (String × String)) :
    k ∈ (setFile k v fs).map Prod.fst := by
  rw [setFile_keys]
  by_cases hmem : k ∈ fs.map Prod.fst <;> simp [hmem]

/-! ## Claim C4: missing source file for add-doc -/

/-- C4.  If the source path names neither a file nor a directory (also
after the destination directories have been created), `add_document`
fails with `NotFound` and no table of the store changes — in particular
no Document row is inserted.  Moreover, on every failing `add_document`
call whatsoever, the document table and the file contents are unchanged:
the row insertion happens only after a successful copy. -/
theorem c4_adddoc_notfound (label fp : String) (stg : Option String) (s : State)
    (hfile : lookupFile fp s.files = none)
    (hdir : fp ∉ insertDir (pathJoin STORAGE_DIR (stg.getD ""))
      (insertDir STORAGE_DIR s.dirs)) :
    (∃ s', add_document label fp stg s = .error (.notFound, s')
      ∧ s'.documents = s.documents ∧ s'.files = s.files ∧ s'.tasks = s.tasks
      ∧ s'.notes = s.notes ∧ s'.events = s.events)
    ∧ ∀ (l2 f2 : String) (st2 : Option String) (t t' : State) (err : AppError),
        add_document l2 f2 st2 t = .error (err, t') →
          t'.documents = t.documents ∧ t'.files = t.files := by
  constructor
  · have hstep : add_document label fp stg s = .error (.notFound, { s with dirs := insertDir (pathJoin STORAGE_DIR (stg.getD "")) (insertDir STORAGE_DIR s.dirs) }) := by
      simp only [add_document, hfile, hdir, if_false]
    exact ⟨_, hstep, rfl, rfl, rfl, rfl, rfl⟩
  · intro l2 f2 st2 t t' err h
    unfold add_document at h
    cases hl : lookupFile f2 t.files with
    | some c => simp [hl] at h
    | none =>
      simp only [hl] at h
      by_cases hd : f2 ∈ insertDir (pathJoin STORAGE_DIR (st2.getD ""))
          (insertDir STORAGE_DIR t.dirs)
      · simp only [hd, if_true, Except.error.injEq, Prod.mk.injEq] at h
        obtain ⟨-, h2⟩ := h
        subst h2
        exact ⟨rfl, rfl⟩
      · simp only [hd, if_false, Except.error.injEq, Prod.mk.injEq] at h
        obtain ⟨-, h2⟩ := h
        subst h2
        exact ⟨rfl, rfl⟩

/-- C4 witness: `add-doc("X", "/no/such/file")` on a fresh state. -/
theorem c4_adddoc_notfound_witness :
    (∃ s', add_document "X" "/no/such/file" none State.init = .error (.notFound, s')
      ∧ s'.documents = State.init.documents ∧ s'.files = State.init.files
      ∧ s'.tasks = State.init.tasks ∧ s'.notes = State.init.notes
      ∧ s'.events = State.init.events)
    ∧ ∀ (l2 f2 : String) (st2 : Option String) (t t' : State) (err : AppError),
        add_document l2 f2 st2 t = .error (err, t') →
          t'.documents = t.documents ∧ t'.files = t.files :=
  c4_adddoc_notfound "X" "/no/such/file" none State.init (by decide) (by decide)

/-! ## Claim C6: add-storage idempotence -/

/-- C6.  Running `add_storage` twice with the same name succeeds both
times (it is a total operation that raises nothing), leaves the
directory set exactly as after the first run, and the directory for the
name exists exactly once. -/
theorem c6_addstorage_idempotent (name : String) (s : State) (h : s.dirs.Nodup) :
    (add_storage name (add_storage name s)).dirs = (add_storage name s).dirs
    ∧ (add_storage name (add_storage name s)).dirs.count (pathJoin STORAGE_DIR name) = 1
    ∧ (add_storage name (add_storage name s)).dirs.Nodup := by
  have hn1 : (insertDir STORAGE_DIR s.dirs).Nodup := insertDir_nodup _ _ h
  have hn2 : (add_storage name s).dirs.Nodup := insertDir_nodup _ _ hn1
  have hmemRoot : STORAGE_DIR ∈ (add_storage name s).dirs :=
    insertDir_mem_of_mem _ _ _ (insertDir_mem_self _ _)
  have hmemPath : pathJoin STORAGE_DIR name ∈ (add_storage name s).dirs :=
    insertDir_mem_self _ _
  have hsecond : (add_storage name (add_storage name s)).dirs = (add_storage name s).dirs := by
    show insertDir (pathJoin STORAGE_DIR name)
        (insertDir STORAGE_DIR (add_storage name s).dirs) = (add_storage name s).dirs
    rw [insertDir_eq_of_mem _ _ hmemRoot, insertDir_eq_of_mem _ _ hmemPath]
  refine ⟨hsecond, ?_, ?_⟩
  · rw [hsecond]
    exact insertDir_count_self _ _ hn1
  · rw [hsecond]
    exact hn2

/-- C6 witness: creating the `finance` sub-area twice on a fresh state. -/
theorem c6_addstorage_idempotent_witness :
    (add_storage "finance" (add_storage "finance" State.init)).dirs =
      (add_storage "finance" State.init).dirs
    ∧ (add_storage "finance" (add_storage "finance" State.init)).dirs.count
        (pathJoin STORAGE_DIR "finance") = 1
    ∧ (add_storage "finance" (add_storage "finance" State.init)).dirs.Nodup :=
  c6_addstorage_idempotent "finance" State.init (by decide)

/-! ## Claim C9: unparseable dates abort before insertion -/

/-- C9.  When the date (for `add-task`) or date-time (for `add-event`)
string fails to parse, the operation raises the invalid-input error with
the store exactly as it was — the parse precedes every insert — and the
dispatcher turns this uncaught exception into a nonzero exit with the
state unchanged. -/
theorem c9_invalid_input_aborts (desc exp name time : String) (s : State)
    (hbad1 : PyDateTime.fromisoformat exp = none)
    (hbad2 : PyDateTime.fromisoformat time = none) :
    add_task desc exp s = .error (.invalidInput, s)
    ∧ add_event name time s = .error (.invalidInput, s)
    ∧ finish (add_task desc exp s) = (s, 1)
    ∧ finish (add_event name time s) = (s, 1) := by
  refine ⟨?_, ?_, ?_, ?_⟩ <;> simp [add_task, add_event, hbad1, hbad2, finish]

/-- C9 witness: two concrete unparseable strings. -/
theorem c9_invalid_input_aborts_witness :
    add_task "x" "not-a-date" State.init = .error (.invalidInput, State.init)
    ∧ add_event "mtg" "2024-13-99 09:00" State.init = .error (.invalidInput, State.init)
    ∧ finish (add_task "x" "not-a-date" State.init) = (State.init, 1)
    ∧ finish (add_event "mtg" "2024-13-99 09:00" State.init) = (State.init, 1) :=
  c9_invalid_input_aborts "x" "not-a-date" "mtg" "2024-13-99 09:00" State.init
    (by decide) (by decide)

/-! ## Claim C10: add-task accepts datetimes and truncates them -/

/-- C10.  `add_task` accepts every string `datetime.fromisoformat`
accepts — dates with a time component included — and stores only the
date part of the parsed value. -/
theorem c10_addtask_truncates (desc exp : String) (s : State) (dt : PyDateTime)
    (h : PyDateTime.fromisoformat exp = some dt) :
    add_task desc exp s = .ok { s with
      tasks := s.tasks ++ [⟨s.nextTaskId, desc, PyDate.toIso dt.date⟩]
      nextTaskId := s.nextTaskId + 1 } := by
  simp [add_task, h]

/-- C10 witness: `"2024-01-02 15:30"` is accepted and stored as
`"2024-01-02"`. -/
theorem c10_addtask_truncates_witness :
    add_task "x" "2024-01-02 15:30" State.init = .ok { State.init with
      tasks := State.init.tasks ++
        [⟨State.init.nextTaskId, "x", PyDate.toIso (PyDate.mk 2024 1 2)⟩]
      nextTaskId := State.init.nextTaskId + 1 } :=
  c10_addtask_truncates "x" "2024-01-02 15:30" State.init
    ⟨⟨2024, 1, 2⟩, 15, 30, 0, 0, none⟩ (by decide)

/-! ## Claim C1: calendar file in bijection with event rows -/

theorem generate_calendar_ok (s s' : State) (h : generate_calendar s = .ok s') :
    ∃ entries, s' = { s with regenCalls := s.regenCalls + 1, calendarFile := some entries, calWrites := s.calWrites + 1 }
      ∧ s.events.mapM (fun r =>
          (PyDateTime.fromisoformat r.time).map (fun dt => CalEntry.mk r.name dt)) =
        some entries := by
  unfold generate_calendar at h
  cases hm : s.events.mapM (fun r =>
      (PyDateTime.fromisoformat r.time).map (fun dt => CalEntry.mk r.name dt)) with
  | none =>
    rw [hm] at h
    simp at h
  | some entries =>
    rw [hm] at h
    simp only [Except.ok.injEq] at h
    exact ⟨entries, h.symm, rfl⟩

/-- C1.  Whenever `add_event` returns successfully — the row was inserted
and `generate_calendar` completed — the calendar file holds exactly one
entry per event row of the store, pairwise matching in name and (parsed)
time, with no extra entries; this holds in particular when several rows
share the same name and time, because each `ics.Event` carries a fresh
unique uid and set insertion never merges two of them. -/
theorem c1_calendar_bijection (name time : String) (s s' : State)
    (h : add_event name time s = .ok s') :
    ∃ entries, s'.calendarFile = some entries
      ∧ entries.length = s'.events.length
      ∧ List.Forall₂ (fun (r : EventRow) (e : CalEntry) =>
          e.name = r.name ∧ PyDateTime.fromisoformat r.time = some e.begin)
        s'.events entries := by
  unfold add_event at h
  cases hp : PyDateTime.fromisoformat time with
  | none => simp [hp] at h
  | some dt =>
    simp only [hp] at h
    obtain ⟨entries, hs', hm⟩ := generate_calendar_ok _ _ h
    subst hs'
    refine ⟨entries, rfl, ?_, ?_⟩
    · have hf := mapM_option_eq_some _ _ _ hm
      exact hf.length_eq.symm
    · have hf := mapM_option_eq_some _ _ _ hm
      refine hf.imp ?_
      intro r e hre
      rw [Option.map_eq_some'] at hre
      obtain ⟨dt', hdt', he⟩ := hre
      subst he
      exact ⟨rfl, hdt'⟩

def c1sA : State := (add_event "A" "2024-01-02 09:00" State.init).toOption.getD State.init

def c1sB : State := (add_event "A" "2024-01-02 09:00" c1sA).toOption.getD State.init

/-- C1 witness: two stored events with the same name and the same time. -/
theorem c1_calendar_bijection_witness :
    ∃ entries, c1sB.calendarFile = some entries
      ∧ entries.length = c1sB.events.length
      ∧ List.Forall₂ (fun (r : EventRow) (e : CalEntry) =>
          e.name = r.name ∧ PyDateTime.fromisoformat r.time = some e.begin)
        c1sB.events entries :=
  c1_calendar_bijection "A" "2024-01-02 09:00" c1sA c1sB (by rfl)

/-! ## Claim C2: EXPIRED annotation -/

theorem PyDate.lt_irrefl (d : PyDate) : PyDate.lt d d = false := by
  simp [PyDate.lt]

/-- C2.  The lines `list_tasks` prints correspond one-to-one to the rows
in listing order, each carrying the row's status; and for every stored
task whose date re-parses, the status is `"EXPIRED"` exactly when the
current date is strictly after the task's expiration date — a date-only
comparison (`PyDate` has no time-of-day component) — and in particular a
task expiring today gets the empty annotation. -/
theorem c2_expired_annotation (today : PyDate) (s : State) (lines : List String)
    (h : list_tasks today s = some lines) :
    List.Forall₂ (fun r ln => taskLine today r = some ln) (tasksOrdered s.tasks) lines
    ∧ ∀ r ∈ s.tasks, ∀ d, PyDate.fromisoformat r.expires = some d →
        (expiredStatus today r = some "EXPIRED" ↔ PyDate.lt d today = true)
        ∧ (d = today → expiredStatus today r = some "") := by
  constructor
  · exact mapM_option_eq_some _ _ _ h
  · intro r _ d hd
    constructor
    · unfold expiredStatus
      rw [hd]
      cases hlt : PyDate.lt d today <;> simp [hlt]
    · intro hde
      subst hde
      unfold expiredStatus
      rw [hd]
      simp [PyDate.lt_irrefl]

def c2state : State := (add_task "Pay rent" "2020-01-01" State.init).toOption.getD State.init

/-- C2 witness: a task due 2020-01-01, listed on 2024-06-01. -/
theorem c2_expired_annotation_witness :
    List.Forall₂ (fun r ln => taskLine ⟨2024, 6, 1⟩ r = some ln)
      (tasksOrdered c2state.tasks) ["1: Pay rent (due 2020-01-01) EXPIRED"]
    ∧ ∀ r ∈ c2state.tasks, ∀ d, PyDate.fromisoformat r.expires = some d →
        (expiredStatus ⟨2024, 6, 1⟩ r = some "EXPIRED" ↔
          PyDate.lt d ⟨2024, 6, 1⟩ = true)
        ∧ (d = ⟨2024, 6, 1⟩ → expiredStatus ⟨2024, 6, 1⟩ r = some "") :=
  c2_expired_annotation ⟨2024, 6, 1⟩ c2state ["1: Pay rent (due 2020-01-01) EXPIRED"]
    (by decide)

/-! ## Claim C8: unknown or absent command -/

/-- C8 counterexample.  An unknown command name does not exit with
status 0: `argparse` rejects the invalid choice and the process exits
with status 2. -/
theorem c8_unknown_command_counterexample :
    (runMain ⟨2024, 6, 1⟩ ["frobnicate"] State.init).2 = 2 ∧ (2 : Nat) ≠ 0 := by
  decide

/-- C8, amended.  With no command at all, `main` prints the usage text
and exits 0; with an unknown (non-help-flag) command name, `argparse`
errors out with exit status 2.  In both cases no table row is inserted
and no file or directory is touched: the only effect is the idempotent
schema initialization that `main` performs on every startup. -/
theorem c8_usage_exit (today : PyDate) (name : String) (rest : List String) (s : State)
    (hname : name ∉ commandNames) (hflag : name ≠ "-h" ∧ name ≠ "--help") :
    runMain today [] s = (init_db s, 0)
    ∧ runMain today (name :: rest) s = (init_db s, 2)
    ∧ (init_db s).tasks = s.tasks ∧ (init_db s).notes = s.notes
    ∧ (init_db s).events = s.events ∧ (init_db s).documents = s.documents
    ∧ (init_db s).files = s.files ∧ (init_db s).dirs = s.dirs
    ∧ (init_db s).calendarFile = s.calendarFile := by
  simp only [commandNames, List.mem_cons, List.not_mem_nil, or_false, not_or] at hname
  obtain ⟨h1, h2, h3, h4, h5, h6, h7, h8, h9⟩ := hname
  refine ⟨rfl, ?_, rfl, rfl, rfl, rfl, rfl, rfl, rfl⟩
  simp [runMain, parseArgs, h1, h2, h3, h4, h5, h6, h7, h8, h9, hflag.1, hflag.2]

/-- C8 witness: the unknown command `frobnicate` on a fresh state. -/
theorem c8_usage_exit_witness :
    runMain ⟨2024, 6, 1⟩ [] State.init = (init_db State.init, 0)
    ∧ runMain ⟨2024, 6, 1⟩ ["frobnicate"] State.init = (init_db State.init, 2)
    ∧ (init_db State.init).tasks = State.init.tasks
    ∧ (init_db State.init).notes = State.init.notes
    ∧ (init_db State.init).events = State.init.events
    ∧ (init_db State.init).documents = State.init.documents
    ∧ (init_db State.init).files = State.init.files
    ∧ (init_db State.init).dirs = State.init.dirs
    ∧ (init_db State.init).calendarFile = State.init.calendarFile :=
  c8_usage_exit ⟨2024, 6, 1⟩ "frobnicate" [] State.init (by decide) (by decide)

/-! ## Claim C7: when the calendar is regenerated -/

/-- Whether an invocation is an `add-event` whose insertion happens
(i.e. the time string parses, so the `INSERT` statement runs). -/
def addEventInserts (argv : List String) : Bool :=
  match parseArgs argv with
  | .cmd (.addEvent _ t) => (PyDateTime.fromisoformat t).isSome
  | _ => false

/-- Whether an invocation is an `add-event` that completes successfully
(insert committed and calendar regeneration returned). -/
def addEventSucceeds (argv : List String) (s : State) : Bool :=
  match parseArgs argv with
  | .cmd (.addEvent n t) =>
    match add_event n t (init_db s) with
    | .ok _ => true
    | .error _ => false
  | _ => false

/-- C7.  Over a whole invocation — startup schema initialization, argument
parsing, dispatch — `generate_calendar` is entered exactly once when an
`add-event` insertion succeeds and never otherwise (not after listings,
not on startup, not when the time fails to parse); and the calendar file
is rewritten exactly once when the whole `add-event` succeeds and never
otherwise. -/
theorem c7_calendar_write_timing (today : PyDate) (argv : List String) (s : State) :
    (runMain today argv s).1.regenCalls =
      s.regenCalls + (if addEventInserts argv then 1 else 0)
    ∧ (runMain today argv s).1.calWrites =
      s.calWrites + (if addEventSucceeds argv s then 1 else 0) := by
  cases hpa : parseArgs argv with
  | noCommand => simp [runMain, addEventInserts, addEventSucceeds, hpa, init_db]
  | help => simp [runMain, addEventInserts, addEventSucceeds, hpa, init_db]
  | usageError => simp [runMain, addEventInserts, addEventSucceeds, hpa, init_db]
  | cmd c =>
    cases c with
    | addTask d e =>
      cases hp : PyDateTime.fromisoformat e <;>
        simp [runMain, addEventInserts, addEventSucceeds, hpa, runCmd, add_task, hp,
          finish, init_db]
    | listTasks =>
      cases hlt : list_tasks today (init_db s) with
      | none =>
        simp only [runMain, hpa, runCmd, hlt]
        simp [addEventInserts, addEventSucceeds, hpa, init_db]
      | some v =>
        simp only [runMain, hpa, runCmd, hlt]
        simp [addEventInserts, addEventSucceeds, hpa, init_db]
    | addNote c =>
      simp [runMain, addEventInserts, addEventSucceeds, hpa, runCmd, add_note, init_db]
    | listNotes =>
      simp [runMain, addEventInserts, addEventSucceeds, hpa, runCmd, init_db]
    | addEvent n t =>
      cases hp : PyDateTime.fromisoformat t with
      | none =>
        simp [runMain, addEventInserts, addEventSucceeds, hpa, runCmd, add_event, hp,
          finish, init_db]
      | some dt =>
        simp only [runMain, addEventInserts, addEventSucceeds, hpa, runCmd, add_event,
          hp, generate_calendar, init_db, Option.isSome_some, if_true]
        constructor
        · split <;> simp [finish]
        · split <;> simp [finish]
    | listEvents =>
      simp [runMain, addEventInserts, addEventSucceeds, hpa, runCmd, init_db]
    | addStorage n =>
      simp [runMain, addEventInserts, addEventSucceeds, hpa, runCmd, add_storage, init_db]
    | addDoc l fp st =>
      cases hl : lookupFile fp s.files with
      | some c =>
        simp [runMain, addEventInserts, addEventSucceeds, hpa, runCmd, add_document, hl,
          finish, init_db]
      | none =>
        by_cases hd : fp ∈ insertDir (pathJoin STORAGE_DIR (st.getD ""))
            (insertDir STORAGE_DIR s.dirs) <;>
          simp [runMain, addEventInserts, addEventSucceeds, hpa, runCmd, add_document,
            hl, hd, finish, init_db]
    | listDocs =>
      simp [runMain, addEventInserts, addEventSucceeds, hpa, runCmd, init_db]

/-! ## Claim C5: add-doc destination path and silent overwrite -/

theorem add_document_ok_char (label fp : String) (stg : Option String) (s : State)
    (c : String) (hl : lookupFile fp s.files = some c) :
    add_document label fp stg s = .ok { s with dirs := insertDir (pathJoin STORAGE_DIR (stg.getD "")) (insertDir STORAGE_DIR s.dirs), files := setFile (pathJoin (pathJoin STORAGE_DIR (stg.getD "")) (baseName fp)) c s.files, documents := s.documents ++ [⟨s.nextDocId, label, pathJoin (pathJoin STORAGE_DIR (stg.getD "")) (baseName fp), stg⟩], nextDocId := s.nextDocId + 1 } := by
  simp only [add_document, hl]

theorem add_document_ok_inv (label fp : String) (stg : Option String) (s s' : State)
    (h : add_document label fp stg s = .ok s') :
    ∃ c, lookupFile fp s.files = some c
      ∧ s' = { s with dirs := insertDir (pathJoin STORAGE_DIR (stg.getD "")) (insertDir STORAGE_DIR s.dirs), files := setFile (pathJoin (pathJoin STORAGE_DIR (stg.getD "")) (baseName fp)) c s.files, documents := s.documents ++ [⟨s.nextDocId, label, pathJoin (pathJoin STORAGE_DIR (stg.getD "")) (baseName fp), stg⟩], nextDocId := s.nextDocId + 1 } := by
  unfold add_document at h
  cases hl : lookupFile fp s.files with
  | none =>
    simp only [hl] at h
    split at h <;> simp at h
  | some c =>
    simp only [hl, Except.ok.injEq] at h
    exact ⟨c, rfl, h.symm⟩

/-- C5.  A successful `add_document` writes the copy to
`<STORAGE_DIR>/<storage area or root>/<basename(source)>`; a second
successful call whose source has the same basename into the same area
succeeds, overwrites that destination in place — afterwards exactly one
file exists at the destination path, holding the second source's
content — while the store keeps both document rows, both pointing at the
destination. -/
theorem c5_adddoc_destination_overwrite (label1 label2 p1 p2 : String)
    (stg : Option String) (s s1 : State) (c2 : String)
    (hkeys : (s.files.map Prod.fst).Nodup)
    (h1 : add_document label1 p1 stg s = .ok s1)
    (h2 : lookupFile p2 s1.files = some c2)
    (hb : baseName p1 = baseName p2) :
    ∃ s2, add_document label2 p2 stg s1 = .ok s2
      ∧ lookupFile (pathJoin (pathJoin STORAGE_DIR (stg.getD "")) (baseName p2))
          s2.files = some c2
      ∧ (s2.files.map Prod.fst).count
          (pathJoin (pathJoin STORAGE_DIR (stg.getD "")) (baseName p2)) = 1
      ∧ s2.documents = s.documents ++ [⟨s.nextDocId, label1, pathJoin (pathJoin STORAGE_DIR (stg.getD "")) (baseName p2), stg⟩, ⟨s.nextDocId + 1, label2, pathJoin (pathJoin STORAGE_DIR (stg.getD "")) (baseName p2), stg⟩] := by
  obtain ⟨c1, hl1, hs1⟩ := add_document_ok_inv _ _ _ _ _ h1
  subst hs1
  rw [hb] at h2 ⊢
  have hcall2 := add_document_ok_char label2 p2 stg _ c2 h2
  refine ⟨_, hcall2, ?_, ?_, ?_⟩
  · exact lookupFile_setFile_self _ _ _
  · have hk1 : ((setFile (pathJoin (pathJoin STORAGE_DIR (stg.getD "")) (baseName p2))
        c1 s.files).map Prod.fst).Nodup := setFile_keys_nodup _ _ _ hkeys
    exact setFile_count_self _ _ _ hk1
  · simp

def c5fs : State := { State.init with files := [("/a/f.txt", "v1"), ("/b/f.txt", "v2")] }

def c5s1 : State := (add_document "d1" "/a/f.txt" none c5fs).toOption.getD State.init

/-- C5 witness: two sources with basename `f.txt`, stored into the root
area one after the other. -/
theorem c5_adddoc_destination_overwrite_witness :
    ∃ s2, add_document "d2" "/b/f.txt" none c5s1 = .ok s2
      ∧ lookupFile (pathJoin (pathJoin STORAGE_DIR "") (baseName "/b/f.txt"))
          s2.files = some "v2"
      ∧ (s2.files.map Prod.fst).count
          (pathJoin (pathJoin STORAGE_DIR "") (baseName "/b/f.txt")) = 1
      ∧ s2.documents = c5fs.documents ++ [⟨c5fs.nextDocId, "d1", pathJoin (pathJoin STORAGE_DIR "") (baseName "/b/f.txt"), none⟩, ⟨c5fs.nextDocId + 1, "d2", pathJoin (pathJoin STORAGE_DIR "") (baseName "/b/f.txt"), none⟩] :=
  c5_adddoc_destination_overwrite "d1" "d2" "/a/f.txt" "/b/f.txt" none c5fs c5s1 "v2"
    (by decide) (by rfl) (by decide) (by decide)

/-! ## Claim C3: listing order of events -/

def c3sA : State :=
  (add_event "A" "2024-01-02 09:00+05:00" State.init).toOption.getD State.init

def c3sB : State :=
  (add_event "B" "2024-01-02 05:00+00:00" c3sA).toOption.getD State.init

/-- C3 counterexample.  With differing UTC offsets the `ORDER BY time`
string order is not chronological: event B (`05:00+00:00`, instant
63839768400000000 µs) is printed before event A (`09:00+05:00`, instant
63839764800000000 µs) although B's instant is strictly later than A's,
so the listing is not ascending in time. -/
theorem c3_tz_counterexample :
    list_events c3sB =
      ["2: B at 2024-01-02T05:00:00+00:00", "1: A at 2024-01-02T09:00:00+05:00"]
    ∧ (PyDateTime.fromisoformat "2024-01-02 05:00+00:00").bind PyDateTime.utcMicros =
        some 63839768400000000
    ∧ (PyDateTime.fromisoformat "2024-01-02 09:00+05:00").bind PyDateTime.utcMicros =
        some 63839764800000000
    ∧ (63839764800000000 : Int) < 63839768400000000 := by
  decide

/-- A stored event row whose time string is the `isoformat` rendering of
a valid naive datetime — the shape of every row `add_event` writes when
given an offset-free time. -/
def naiveStoredRow (r : EventRow) : Prop :=
  match PyDateTime.fromisoformat r.time with
  | some dt => dt.offset = none ∧ dt.validB = true ∧ r.time = dt.isoformat
  | none => False

instance (r : EventRow) : Decidable (naiveStoredRow r) := by
  unfold naiveStoredRow
  cases PyDateTime.fromisoformat r.time with
  | none => exact inferInstance
  | some dt => exact inferInstance

/-- C3, amended.  `list_events` prints the events in ascending order of
their stored time strings (sqlite BINARY collation).  When every stored
time is naive — no UTC offset — this coincides with ascending
chronological order; with differing UTC offsets the order can fail to be
chronological (see the counterexample). -/
theorem c3_list_events_sorted (s : State)
    (h : ∀ r ∈ s.events, naiveStoredRow r) :
    list_events s = (eventsOrdered s.events).map eventLine
    ∧ (eventsOrdered s.events).Pairwise (fun a b =>
        ∃ da db, PyDateTime.fromisoformat a.time = some da ∧
          PyDateTime.fromisoformat b.time = some db ∧ da.naiveLe db = true) := by
  refine ⟨rfl, ?_⟩
  haveI htot : IsTotal EventRow (fun a b => strLe a.time b.time = true) :=
    ⟨fun a b => Bool.or_eq_true_iff.mp (strLe_total a.time b.time)⟩
  haveI htr : IsTrans EventRow (fun a b => strLe a.time b.time = true) :=
    ⟨fun a b c hab hbc => strLe_trans _ _ _ hab hbc⟩
  have hsorted : (eventsOrdered s.events).Pairwise (fun a b => strLe a.time b.time = true) :=
    List.sorted_insertionSort _ s.events
  have hmem : ∀ x ∈ eventsOrdered s.events, x ∈ s.events := fun x hx =>
    (List.perm_insertionSort (fun a b : EventRow => strLe a.time b.time = true)
      s.events).mem_iff.mp hx
  refine List.Pairwise.imp_of_mem ?_ hsorted
  intro a b ha hb hab
  have h1 := h a (hmem a ha)
  have h2 := h b (hmem b hb)
  unfold naiveStoredRow at h1 h2
  cases hpa : PyDateTime.fromisoformat a.time with
  | none => simp only [hpa] at h1
  | some da =>
    cases hpb : PyDateTime.fromisoformat b.time with
    | none => simp only [hpb] at h2
    | some db =>
      simp only [hpa] at h1
      simp only [hpb] at h2
      obtain ⟨hoa, hva, hia⟩ := h1
      obtain ⟨hob, hvb, hib⟩ := h2
      refine ⟨da, db, rfl, rfl, ?_⟩
      rw [hia, hib] at hab
      rw [strLe_isoformat_eq_naiveLe da db hva hvb hoa hob] at hab
      exact hab

def c3w1 : State :=
  (add_event "Standup" "2024-01-02 09:00" State.init).toOption.getD State.init

def c3w2 : State :=
  (add_event "Retro" "2024-01-01 15:00" c3w1).toOption.getD State.init

/-- C3 witness: two naive events inserted out of chronological order. -/
theorem c3_list_events_sorted_witness :
    list_events c3w2 = (eventsOrdered c3w2.events).map eventLine
    ∧ (eventsOrdered c3w2.events).Pairwise (fun a b =>
        ∃ da db, PyDateTime.fromisoformat a.time = some da ∧
          PyDateTime.fromisoformat b.time = some db ∧ da.naiveLe db = true) :=
  c3_list_events_sorted c3w2 (by decide)

end TodoApp
